import Mathlib

/-!
Shallow embedding of the blogicum blog application (models, view dispatch
logic, query managers and pagination) together with proofs settling the
frozen claims about its specification.

The embedding follows `src/blogicum/blog/models.py`,
`src/blogicum/blog/views.py` and `src/blogicum/blogicum/utils.py`.
Database rows become Lean structures; a query set becomes a Lean list of
rows; each Django manager or view `dispatch`/`get_context_data` method
becomes a function over an explicit database value and viewer identity.
An SQL `ORDER BY` leaves the relative order of rows that compare equal
unspecified, so an ordered listing is modelled as a relation between the
filtered rows and an output list rather than as one canonical list.
-/

namespace Blogicum

/-- Category row: `blog.models.Category` (title, unique slug, description,
plus the `is_published` flag inherited from `core.models.BaseModel`). -/
structure Category where
  id : Nat
  title : String
  slug : String
  description : String
  is_published : Bool
deriving DecidableEq, Repr

/-- Location row: `blog.models.Location` (name plus the inherited
`is_published` flag). -/
structure Location where
  id : Nat
  name : String
  is_published : Bool
deriving DecidableEq, Repr

/-- User row of the host auth framework: only the primary key and username
matter to this application. -/
structure User where
  id : Nat
  username : String
deriving DecidableEq, Repr

/-- Post row: `blog.models.Post`. `pub_date` is a timestamp modelled as an
integer; `author` holds the user primary key (a required foreign key);
`location` and `category` are nullable foreign keys (`on_delete=SET_NULL`);
`is_published` is inherited from `core.models.BaseModel`. -/
structure Post where
  id : Nat
  title : String
  text : String
  pub_date : Int
  author : Nat
  location : Option Nat
  category : Option Nat
  is_published : Bool
deriving DecidableEq, Repr

/-- Comment row: `blog.models.Comment`. `post` and `author` are required
foreign keys; `created_at` is the immutable creation timestamp. -/
structure Comment where
  id : Nat
  text : String
  post : Nat
  created_at : Int
  author : Nat
deriving DecidableEq, Repr

/-- Database state plus the clock `timezone.now()` reads. -/
structure DB where
  users : List User
  categories : List Category
  locations : List Location
  posts : List Post
  comments : List Comment
  now : Int
deriving DecidableEq, Repr

/-- Acting identity of a request: `request.user` is either the
framework's anonymous user or an authenticated `User` row (by pk). -/
inductive Viewer where
  | anonymous
  | user (id : Nat)
deriving DecidableEq, Repr

/-- Checks `request.user.is_authenticated`. -/
def Viewer.is_authenticated : Viewer → Bool
  | .anonymous => false
  | .user _ => true

/-- Looks up a category row by primary key. -/
def DB.findCategory (db : DB) (cid : Nat) : Option Category :=
  db.categories.find? (fun c => c.id = cid)

/-- Looks up a user row by username (the `slug_field = 'username'` lookup
of the profile views). -/
def DB.findUser (db : DB) (name : String) : Option User :=
  db.users.find? (fun u => u.username = name)

/-- Checks whether the post's category foreign key reaches a row with
`is_published=True`: the `category__is_published=True` join filter, which a
null `category` never satisfies. -/
def categoryPublished (db : DB) (p : Post) : Bool :=
  match p.category with
  | none => false
  | some cid =>
    match db.findCategory cid with
    | none => false
    | some c => c.is_published

/-- Row filter of `PublishedPostsManager.get_queryset`
(`blog/models.py`): `is_published=True`, `category__is_published=True`,
`pub_date__lt=timezone.now()`. Note the strict `__lt` comparison. -/
def publishedPostFilter (db : DB) (p : Post) : Bool :=
  p.is_published && categoryPublished db p && decide (p.pub_date < db.now)

/-- Query set of `PublishedPostsManager` (bound on `Post` as the manager
the views dereference for published posts): the rows passing
`publishedPostFilter`, in table order; `select_related` only joins and
filters nothing. -/
def publishedPostsQueryset (db : DB) : List Post :=
  db.posts.filter (publishedPostFilter db)

/-- Query set of `PostForeignKeyManager` (bound on `Post` as the
foreign-key-joined manager): `select_related` joins only, so every post
row is kept. -/
def postFkJoinedQueryset (db : DB) : List Post :=
  db.posts

/-- Modelled from the spec, for comparison with the source predicate:
spec section 4.1 and claim C1 state that a post is publicly visible to a
non-author viewer iff its published flag is true, its category's published
flag is true, and its publication timestamp is at or before (`<=`) the
current time. -/
def specVisibleToNonAuthor (db : DB) (p : Post) : Bool :=
  p.is_published && categoryPublished db p && decide (p.pub_date ≤ db.now)

/-- Comment-count aggregate `annotate(Count('comments'))` for one post. -/
def commentCount (db : DB) (p : Post) : Nat :=
  (db.comments.filter (fun c => c.post = p.id)).length

/-- Comments of a post, as the `post.comments` related manager returns
them (here unordered; their default ordering is by `created_at`). -/
def commentsOf (db : DB) (pid : Nat) : List Comment :=
  db.comments.filter (fun c => c.post = pid)

/-- Outcome of a read (detail) view: the rendered object, or the Http404
raised by `get_object_or_404` / `get_object`, or an access-denied
response. The blogicum detail views never produce `forbidden`; the
constructor exists so "not found rather than forbidden" is expressible. -/
inductive DetailResult (α : Type) where
  | found : α → DetailResult α
  | notFound
  | forbidden
deriving DecidableEq, Repr

/-- Outcome of a mutating view's `dispatch`: `proceed` means control
reaches `super().dispatch()` and the mutation handler runs; the other
constructors are the short-circuit responses the views return instead.
`forbidden` (an access-denied response) is never produced by this code
but is a possible HTTP outcome. -/
inductive DispatchResult where
  | proceed
  | redirectPostDetail (post_pk : Nat)
  | redirectProfile (username : String)
  | redirectLogin
  | notFound
  | forbidden
deriving DecidableEq, Repr

/-- Detail retrieval of `PostDetailView`: `get_object` runs over
`post_fk_joined_query.all()` (all rows, Http404 if the pk is absent);
then `get_context_data` re-fetches through the published-posts query with
`get_object_or_404` whenever `self.object.author != self.request.user`,
and renders the post with its comments. -/
def postDetail (db : DB) (viewer : Viewer) (post_pk : Nat) :
    DetailResult (Post × List Comment) :=
  match (postFkJoinedQueryset db).find? (fun p => p.id = post_pk) with
  | none => .notFound
  | some p =>
    if Viewer.user p.author ≠ viewer then
      match (publishedPostsQueryset db).find? (fun q => q.id = post_pk) with
      | none => .notFound
      | some q => .found (q, commentsOf db q.id)
    else
      .found (p, commentsOf db p.id)

/-- Detail retrieval of `CategoryDetailView`: `get_object` runs over
`Category.objects.filter(is_published=True)` keyed by slug (Http404 when
no published category has the slug); the context holds the published
posts with `category__exact` the found category, each annotated with its
comment count. -/
def categoryDetail (db : DB) (slug : String) :
    DetailResult (Category × List (Post × Nat)) :=
  match (db.categories.filter (fun c => c.is_published)).find?
      (fun c => c.slug = slug) with
  | none => .notFound
  | some c =>
    .found (c, ((publishedPostsQueryset db).filter
      (fun p => p.category = some c.id)).map (fun p => (p, commentCount db p)))

/-- Post source of `ProfileDetailView.get_context_data`: the
foreign-key-joined (unfiltered) query when the viewer is the profile's
own user, the published-posts query otherwise, filtered by
`author__exact`. -/
def profilePostsSource (db : DB) (viewer : Viewer) (u : User) : List Post :=
  (if viewer = Viewer.user u.id then postFkJoinedQueryset db
   else publishedPostsQueryset db).filter (fun p => p.author = u.id)

/-- Detail retrieval of `ProfileDetailView`: the user is looked up by
username (Http404 if absent); the context holds the profile's posts from
`profilePostsSource`, each annotated with its comment count. -/
def profileDetail (db : DB) (viewer : Viewer) (username : String) :
    DetailResult (User × List (Post × Nat)) :=
  match db.findUser username with
  | none => .notFound
  | some u =>
    .found (u, (profilePostsSource db viewer u).map
      (fun p => (p, commentCount db p)))

/-- Dispatch of `PostCreateView`: only `LoginRequiredMixin` guards it. -/
def postCreateDispatch (viewer : Viewer) : DispatchResult :=
  if viewer.is_authenticated then .proceed else .redirectLogin

/-- Dispatch of `PostUpdateView`: its own `dispatch` runs before the
login mixin. It fetches the post from the foreign-key-joined query with
`get_object_or_404`, returns `redirect(instance)` (the post's detail
page) when `instance.author != request.user`, and otherwise falls
through to `LoginRequiredMixin.dispatch`. -/
def postUpdateDispatch (db : DB) (viewer : Viewer) (post_pk : Nat) :
    DispatchResult :=
  match (postFkJoinedQueryset db).find? (fun p => p.id = post_pk) with
  | none => .notFound
  | some p =>
    if Viewer.user p.author ≠ viewer then .redirectPostDetail p.id
    else if viewer.is_authenticated then .proceed
    else .redirectLogin

/-- Dispatch of `PostDeleteView`: identical guard to `PostUpdateView`. -/
def postDeleteDispatch (db : DB) (viewer : Viewer) (post_pk : Nat) :
    DispatchResult :=
  match (postFkJoinedQueryset db).find? (fun p => p.id = post_pk) with
  | none => .notFound
  | some p =>
    if Viewer.user p.author ≠ viewer then .redirectPostDetail p.id
    else if viewer.is_authenticated then .proceed
    else .redirectLogin

/-- Dispatch of `ProfileUpdateView`: its own `dispatch` runs before the
login mixin. `get_object()` looks the user up by username (Http404 if
absent); when that user is not `request.user` the view redirects to that
profile page, else falls through to `LoginRequiredMixin.dispatch`. -/
def profileUpdateDispatch (db : DB) (viewer : Viewer) (username : String) :
    DispatchResult :=
  match db.findUser username with
  | none => .notFound
  | some u =>
    if Viewer.user u.id ≠ viewer then .redirectProfile username
    else if viewer.is_authenticated then .proceed
    else .redirectLogin

/-- Dispatch of `CommentCreateView`: explicit authentication check
(redirect to `/auth/login/`), then `get_object_or_404` of the post from
the published-posts query. -/
def commentCreateDispatch (db : DB) (viewer : Viewer) (post_pk : Nat) :
    DispatchResult :=
  if ¬ viewer.is_authenticated then .redirectLogin
  else
    match (publishedPostsQueryset db).find? (fun p => p.id = post_pk) with
    | none => .notFound
    | some _ => .proceed

/-- Dispatch of `CommentUpdateView`: explicit authentication check, then
`get_object_or_404` of the post from the published-posts query, then
`get_object_or_404(Comment, pk=comment_pk, author=request.user)` — a
comment owned by someone else is a 404, not a forbidden response. -/
def commentUpdateDispatch (db : DB) (viewer : Viewer)
    (post_pk comment_pk : Nat) : DispatchResult :=
  if ¬ viewer.is_authenticated then .redirectLogin
  else
    match (publishedPostsQueryset db).find? (fun p => p.id = post_pk) with
    | none => .notFound
    | some _ =>
      match db.comments.find?
          (fun c => c.id = comment_pk && Viewer.user c.author = viewer) with
      | none => .notFound
      | some _ => .proceed

/-- Dispatch of `CommentDeleteView`: identical guard to
`CommentUpdateView`. -/
def commentDeleteDispatch (db : DB) (viewer : Viewer)
    (post_pk comment_pk : Nat) : DispatchResult :=
  if ¬ viewer.is_authenticated then .redirectLogin
  else
    match (publishedPostsQueryset db).find? (fun p => p.id = post_pk) with
    | none => .notFound
    | some _ =>
      match db.comments.find?
          (fun c => c.id = comment_pk && Viewer.user c.author = viewer) with
      | none => .notFound
      | some _ => .proceed

/-- Applies a post edit: `UpdateView` saves the form over the instance
with the given pk; the field changes are abstracted as `f`. -/
def updatePost (db : DB) (pk : Nat) (f : Post → Post) : DB :=
  { db with posts := db.posts.map (fun p => if p.id = pk then f p else p) }

/-- Applies a post deletion; comments cascade (`on_delete=CASCADE`). -/
def deletePost (db : DB) (pk : Nat) : DB :=
  { db with
    posts := db.posts.filter (fun p => p.id ≠ pk)
    comments := db.comments.filter (fun c => c.post ≠ pk) }

/-- Applies a comment edit with field changes `f`. -/
def updateComment (db : DB) (pk : Nat) (f : Comment → Comment) : DB :=
  { db with
    comments := db.comments.map (fun c => if c.id = pk then f c else c) }

/-- Applies a comment deletion. -/
def deleteComment (db : DB) (pk : Nat) : DB :=
  { db with comments := db.comments.filter (fun c => c.id ≠ pk) }

/-- Applies a profile edit with field changes `f`. -/
def updateUser (db : DB) (uid : Nat) (f : User → User) : DB :=
  { db with users := db.users.map (fun u => if u.id = uid then f u else u) }

/-- Full post-create request: the guarded handler inserts the form's post
with `form.instance.author = self.request.user`. -/
def postCreateRequest (db : DB) (viewer : Viewer) (p : Post) :
    DispatchResult × DB :=
  match postCreateDispatch viewer, viewer with
  | .proceed, .user uid =>
    (.proceed, { db with posts := db.posts ++ [{ p with author := uid }] })
  | r, _ => (r, db)

/-- Full post-edit request: the mutation runs only when dispatch
proceeds. -/
def postUpdateRequest (db : DB) (viewer : Viewer) (post_pk : Nat)
    (f : Post → Post) : DispatchResult × DB :=
  match postUpdateDispatch db viewer post_pk with
  | .proceed => (.proceed, updatePost db post_pk f)
  | r => (r, db)

/-- Full post-delete request. -/
def postDeleteRequest (db : DB) (viewer : Viewer) (post_pk : Nat) :
    DispatchResult × DB :=
  match postDeleteDispatch db viewer post_pk with
  | .proceed => (.proceed, deletePost db post_pk)
  | r => (r, db)

/-- Full profile-edit request. -/
def profileUpdateRequest (db : DB) (viewer : Viewer) (username : String)
    (f : User → User) : DispatchResult × DB :=
  match profileUpdateDispatch db viewer username, viewer with
  | .proceed, .user uid => (.proceed, updateUser db uid f)
  | r, _ => (r, db)

/-- Full comment-create request: the guarded handler inserts a comment
with `form.instance.author = self.request.user` and
`form.instance.post = self.post_obj`. -/
def commentCreateRequest (db : DB) (viewer : Viewer) (post_pk : Nat)
    (cid : Nat) (text : String) (ts : Int) : DispatchResult × DB :=
  match commentCreateDispatch db viewer post_pk, viewer with
  | .proceed, .user uid =>
    (.proceed, { db with comments :=
      db.comments ++ [⟨cid, text, post_pk, ts, uid⟩] })
  | r, _ => (r, db)

/-- Full comment-edit request. -/
def commentUpdateRequest (db : DB) (viewer : Viewer)
    (post_pk comment_pk : Nat) (f : Comment → Comment) :
    DispatchResult × DB :=
  match commentUpdateDispatch db viewer post_pk comment_pk with
  | .proceed => (.proceed, updateComment db comment_pk f)
  | r => (r, db)

/-- Full comment-delete request. -/
def commentDeleteRequest (db : DB) (viewer : Viewer)
    (post_pk comment_pk : Nat) : DispatchResult × DB :=
  match commentDeleteDispatch db viewer post_pk comment_pk with
  | .proceed => (.proceed, deleteComment db comment_pk)
  | r => (r, db)

/-- Total page count of `django.core.paginator.Paginator` as invoked by
`blogicum/utils.py` (orphans 0, `allow_empty_first_page=True`):
`ceil(max(1, count) / per_page)`. -/
def numPages (count per_page : Nat) : Nat :=
  (max 1 count + per_page - 1) / per_page

/-- Resolved 1-based page number of `Paginator.get_page`: an absent or
non-integer parameter (`PageNotAnInteger`) resolves to 1; an integer
below 1 or above the page count (`EmptyPage`) resolves to the LAST page.
The raw `request.GET.get('page')` value is modelled as `Option Int`,
`none` standing for absent or non-integer. -/
def getPageNumber (count per_page : Nat) : Option Int → Nat
  | none => 1
  | some n =>
    if n < 1 then numPages count per_page
    else if (numPages count per_page : Int) < n then numPages count per_page
    else n.toNat

/-- Items of the resolved page: `Page.object_list` is the slice
`objects[(number-1)*per_page : number*per_page]`. This is
`blogicum.utils.paginate` composed with Django's `Paginator.get_page`. -/
def paginate {α : Type} (objects : List α) (per_page : Nat)
    (page : Option Int) : List α :=
  (objects.drop ((getPageNumber objects.length per_page page - 1)
    * per_page)).take per_page

/-- Pairwise comparison imposed by the views' `order_by('-pub_date')`:
later rows never have a larger `pub_date`. Calling `order_by` replaces
the default `Post.Meta.ordering` entirely, so no further key constrains
rows with equal `pub_date`. -/
def pubDateDescPairwise (l : List Post) : Prop :=
  l.Pairwise (fun a b => b.pub_date ≤ a.pub_date)

/-- All output orders an SQL `ORDER BY` on the single key `-pub_date` may
produce for the given rows: any permutation that is pairwise descending
on `pub_date`. -/
def orderedByPubDateDesc (rows l : List Post) : Prop :=
  rows.Perm l ∧ pubDateDescPairwise l

/-- Rows of the global index listing (`PostListView.queryset`): the
published-posts query. -/
def indexRows (db : DB) : List Post :=
  publishedPostsQueryset db

/-- Rows of the by-category listing (`CategoryDetailView`): published
posts with `category__exact` the given category. -/
def categoryRows (db : DB) (c : Category) : List Post :=
  (publishedPostsQueryset db).filter (fun p => p.category = some c.id)

/-- Possible ordered outputs of the global index listing. -/
def isIndexListing (db : DB) (l : List Post) : Prop :=
  orderedByPubDateDesc (indexRows db) l

/-- Possible ordered outputs of a by-category listing. -/
def isCategoryListing (db : DB) (c : Category) (l : List Post) : Prop :=
  orderedByPubDateDesc (categoryRows db c) l

/-- Possible ordered outputs of a by-author (profile) listing. -/
def isProfileListing (db : DB) (viewer : Viewer) (u : User)
    (l : List Post) : Prop :=
  orderedByPubDateDesc (profilePostsSource db viewer u) l

/-- Manager attributes `blog/models.py` defines on `Post`: `objects`,
`published_posts` and `posts_fk_joined` (`core.models.BaseModel`, per the
spec's data model, contributes only the published flag and timestamps,
no managers). -/
def postManagerAttributes : List String :=
  ["objects", "published_posts", "posts_fk_joined"]

/-- Manager attribute names `blog/views.py` dereferences on `Post`
(`Post.published_posts_query...` and `Post.post_fk_joined_query...`). -/
def viewsManagerReferences : List String :=
  ["published_posts_query", "post_fk_joined_query"]

/-- Well-formedness of a database: post primary keys are unique. -/
def DB.postIdsNodup (db : DB) : Prop :=
  (db.posts.map Post.id).Nodup

instance (db : DB) : Decidable db.postIdsNodup :=
  inferInstanceAs (Decidable (List.Nodup _))

instance (l : List Post) : Decidable (pubDateDescPairwise l) :=
  inferInstanceAs (Decidable (List.Pairwise _ _))

instance (rows l : List Post) : Decidable (orderedByPubDateDesc rows l) :=
  inferInstanceAs (Decidable (_ ∧ _))

instance (db : DB) (l : List Post) : Decidable (isIndexListing db l) :=
  inferInstanceAs (Decidable (orderedByPubDateDesc _ _))

instance (db : DB) (c : Category) (l : List Post) :
    Decidable (isCategoryListing db c l) :=
  inferInstanceAs (Decidable (orderedByPubDateDesc _ _))

instance (db : DB) (v : Viewer) (u : User) (l : List Post) :
    Decidable (isProfileListing db v u l) :=
  inferInstanceAs (Decidable (orderedByPubDateDesc _ _))

/-- Example category fixture (published). -/
def exCat : Category := ⟨1, "Cat", "cat", "d", true⟩

/-- Example category fixture (unpublished). -/
def exCatHidden : Category := ⟨2, "Hidden", "hid", "d", false⟩

/-- Example user fixture. -/
def exAlice : User := ⟨1, "alice"⟩

/-- Example user fixture. -/
def exBob : User := ⟨2, "bob"⟩

/-- Fixture: a published past post by alice. -/
def exPostOld : Post := ⟨1, "b-title", "t", 5, 1, none, some 1, true⟩

/-- Fixture: a published post by alice whose `pub_date` equals the
clock's current time. -/
def exPostAtNow : Post := ⟨2, "now", "t", 10, 1, none, some 1, true⟩

/-- Fixture: an unpublished (draft) post by alice. -/
def exPostDraft : Post := ⟨3, "draft", "t", 5, 1, none, some 1, false⟩

/-- Fixture: a published past post by bob whose `pub_date` equals
`exPostOld.pub_date` but whose title sorts before it. -/
def exPostOld2 : Post := ⟨4, "a-title", "t", 5, 2, none, some 1, true⟩

/-- Fixture: the newest published post, by bob. -/
def exPostNew : Post := ⟨5, "new", "t", 9, 2, none, some 1, true⟩

/-- Fixture: a comment by bob on alice's post 1. -/
def exComment : Comment := ⟨1, "hi", 1, 6, 2⟩

/-- Fixture database at time 10. -/
def exDB : DB :=
  ⟨[exAlice, exBob], [exCat, exCatHidden], [],
   [exPostOld, exPostAtNow, exPostDraft, exPostOld2, exPostNew],
   [exComment], 10⟩

/-- When post ids are unique, looking a pk up in a filtered query either
finds the very row the unfiltered lookup finds (when that row passes the
filter) or nothing (when it does not). -/
theorem find_filter_eq {l : List Post} {p : Post} {i : Nat}
    (hn : (l.map Post.id).Nodup)
    (hf : l.find? (fun q => q.id = i) = some p) (f : Post → Bool) :
    (l.filter f).find? (fun q => q.id = i) =
      if f p then some p else none := by
  induction l with
  | nil => simp at hf
  | cons a t ih =>
    rw [List.map_cons, List.nodup_cons] at hn
    obtain ⟨ha, ht⟩ := hn
    by_cases hai : a.id = i
    · have hpa : p = a := by
        rw [List.find?_cons_of_pos _ (by simp [hai])] at hf
        exact (Option.some_inj.mp hf).symm
      subst hpa
      have htnone : ∀ g : Post → Bool,
          (t.filter g).find? (fun q => q.id = i) = none := by
        intro g
        apply List.find?_eq_none.mpr
        intro q hq
        have hqt : q ∈ t := List.mem_of_mem_filter hq
        have : q.id ≠ p.id := fun h => ha (h ▸ List.mem_map_of_mem Post.id hqt)
        simp [hai ▸ this]
      rw [List.filter_cons]
      by_cases hfa : f p
      · simp only [hfa, if_true]
        rw [List.find?_cons_of_pos _ (by simp [hai])]
      · simp only [hfa]
        simpa using htnone f
    · rw [List.find?_cons_of_neg _ (by simp [hai])] at hf
      rw [List.filter_cons]
      by_cases hfa : f a
      · simp only [hfa, if_true]
        rw [List.find?_cons_of_neg _ (by simp [hai])]
        exact ih ht hf
      · simp only [hfa]
        simpa using ih ht hf

/-- Pairwise-descending `pub_date` forces strictly newer posts to appear
strictly earlier in the list. -/
theorem pairwise_desc_precede {l : List Post}
    (h : pubDateDescPairwise l) (i j : Fin l.length)
    (hlt : (l.get j).pub_date < (l.get i).pub_date) : i < j := by
  rcases lt_trichotomy i j with h1 | h1 | h1
  · exact h1
  · subst h1
    exact absurd hlt (lt_irrefl _)
  · have := (List.pairwise_iff_get.mp h) j i h1
    exact absurd hlt (not_lt.mpr this)

/-- C1 counterexample: the claim's boundary is wrong. A post whose
`pub_date` equals the current time satisfies the spec's "at or before
now" visibility predicate, yet the published-posts query (which uses the
strict filter `pub_date__lt=timezone.now()`) excludes it, and single-post
retrieval by a non-author viewer returns not-found. -/
theorem C1_counterexample :
    specVisibleToNonAuthor exDB exPostAtNow = true ∧
    Viewer.user exPostAtNow.author ≠ Viewer.user 2 ∧
    exPostAtNow ∉ publishedPostsQueryset exDB ∧
    postDetail exDB (Viewer.user 2) 2 = DetailResult.notFound := by
  refine ⟨by decide, by decide, by decide, by decide⟩

/-- C1 (amended): for a viewer other than the author, a post is publicly
visible iff its published flag is true, its category exists with a true
published flag, and its `pub_date` is STRICTLY BEFORE the current time;
this is exactly the predicate of the published-posts query, and the same
query decides single-post retrieval for non-authors. -/
theorem C1_visibility_strict (db : DB) (p : Post) (v : Viewer)
    (hn : db.postIdsNodup)
    (hf : db.posts.find? (fun q => q.id = p.id) = some p)
    (hv : Viewer.user p.author ≠ v) :
    (p ∈ publishedPostsQueryset db ↔
      (p.is_published = true ∧ categoryPublished db p = true ∧
        p.pub_date < db.now)) ∧
    (postDetail db v p.id = .found (p, commentsOf db p.id) ↔
      p ∈ publishedPostsQueryset db) ∧
    (postDetail db v p.id = .notFound ↔ p ∉ publishedPostsQueryset db) := by
  have hmem : p ∈ db.posts := List.mem_of_find?_eq_some hf
  have hmf : p ∈ publishedPostsQueryset db ↔ publishedPostFilter db p = true := by
    simp [publishedPostsQueryset, List.mem_filter, hmem]
  have hkey := find_filter_eq hn hf (publishedPostFilter db)
  refine ⟨?_, ?_, ?_⟩
  · rw [hmf]
    simp [publishedPostFilter, Bool.and_eq_true, decide_eq_true_iff, and_assoc]
  · rw [hmf]
    by_cases hfp : publishedPostFilter db p = true <;>
      simp [postDetail, postFkJoinedQueryset, publishedPostsQueryset, hf, hv,
        hfp, hkey]
  · rw [hmf]
    by_cases hfp : publishedPostFilter db p = true <;>
      simp [postDetail, postFkJoinedQueryset, publishedPostsQueryset, hf, hv,
        hfp, hkey]

/-- C1 witness: the amended theorem applied to the draft fixture and a
non-author viewer. -/
theorem C1_witness :
    exDB.postIdsNodup ∧
    ((exPostDraft ∈ publishedPostsQueryset exDB ↔
      (exPostDraft.is_published = true ∧
        categoryPublished exDB exPostDraft = true ∧
        exPostDraft.pub_date < exDB.now)) ∧
    (postDetail exDB (Viewer.user 2) exPostDraft.id =
        .found (exPostDraft, commentsOf exDB exPostDraft.id) ↔
      exPostDraft ∈ publishedPostsQueryset exDB) ∧
    (postDetail exDB (Viewer.user 2) exPostDraft.id = .notFound ↔
      exPostDraft ∉ publishedPostsQueryset exDB)) :=
  ⟨by decide,
   C1_visibility_strict exDB exPostDraft (Viewer.user 2) (by decide)
     (by decide) (by decide)⟩

/-- C2 counterexample: the listing views call `order_by('-pub_date')`,
which replaces the model's default ordering entirely, so the output
order of equal-`pub_date` posts is unconstrained. Here a valid index
listing places the title "b-title" post before the title "a-title" post
although both share `pub_date = 5`, violating the claimed
ascending-title tie-break. -/
theorem C2_counterexample :
    isIndexListing exDB [exPostNew, exPostOld, exPostOld2] ∧
    exPostOld.pub_date = exPostOld2.pub_date ∧
    exPostOld2.title < exPostOld.title ∧
    [exPostNew, exPostOld, exPostOld2].indexOf exPostOld <
      [exPostNew, exPostOld, exPostOld2].indexOf exPostOld2 := by
  refine ⟨⟨by decide, by decide⟩, by decide,
    by rw [String.lt_iff_toList_lt]; decide, by decide⟩

/-- C2 (amended): in every possible output of the global index,
by-category and by-author listings, a post with a strictly larger
`pub_date` precedes one with a strictly smaller `pub_date`; the order of
posts with equal `pub_date` is unspecified, because the views'
`order_by('-pub_date')` replaces the default
`Post.Meta.ordering = ('-pub_date', 'title')` and leaves no tie-break
key. -/
theorem C2_listing_desc (db : DB) (l : List Post)
    (h : isIndexListing db l ∨ (∃ c, isCategoryListing db c l) ∨
      (∃ v u, isProfileListing db v u l))
    (i j : Fin l.length)
    (hlt : (l.get j).pub_date < (l.get i).pub_date) : i < j := by
  have hp : pubDateDescPairwise l := by
    rcases h with h | ⟨c, h⟩ | ⟨v, u, h⟩
    · exact h.2
    · exact h.2
    · exact h.2
  exact pairwise_desc_precede hp i j hlt

/-- C2 witness: the amended theorem applied to a by-author listing of
bob's two published posts. -/
theorem C2_witness :
    isProfileListing exDB (Viewer.user 2) exBob [exPostNew, exPostOld2] ∧
    (⟨0, by decide⟩ : Fin ([exPostNew, exPostOld2].length)) <
      ⟨1, by decide⟩ :=
  ⟨⟨by decide, by decide⟩,
   C2_listing_desc exDB [exPostNew, exPostOld2]
     (Or.inr (Or.inr ⟨Viewer.user 2, exBob, ⟨by decide, by decide⟩⟩))
     ⟨0, by decide⟩ ⟨1, by decide⟩ (by decide)⟩

/-- C3: single-post retrieval returns the post with its comments to its
author regardless of the published flag, category flag or a future
`pub_date`; for any other viewer a post failing the visibility filter
surfaces as not-found, and the detail view never returns a forbidden
response. -/
theorem C3_post_detail (db : DB) (p : Post) (v : Viewer) (pk : Nat)
    (hn : db.postIdsNodup)
    (hf : db.posts.find? (fun q => q.id = pk) = some p) :
    (v = Viewer.user p.author →
      postDetail db v pk = .found (p, commentsOf db pk)) ∧
    (v ≠ Viewer.user p.author → publishedPostFilter db p = false →
      postDetail db v pk = .notFound) ∧
    postDetail db v pk ≠ .forbidden := by
  have hid : p.id = pk := by simpa using List.find?_some hf
  have hkey := find_filter_eq hn (hid ▸ hf) (publishedPostFilter db)
  rw [hid] at hkey
  refine ⟨?_, ?_, ?_⟩
  · intro hv
    simp [postDetail, postFkJoinedQueryset, hf, hv, hid]
  · intro hv hfp
    have hv2 : Viewer.user p.author ≠ v := fun h => hv h.symm
    simp [postDetail, postFkJoinedQueryset, publishedPostsQueryset, hf, hv2,
      hkey, hfp]
  · by_cases hvv : Viewer.user p.author ≠ v
    · by_cases hfp : publishedPostFilter db p = true <;>
        simp [postDetail, postFkJoinedQueryset, publishedPostsQueryset, hf,
          hvv, hkey, hfp]
    · simp [postDetail, postFkJoinedQueryset, hf, hvv]

/-- C3 witness: the theorem applied to the draft fixture viewed by its
author and by another user. -/
theorem C3_witness :
    exDB.postIdsNodup ∧
    ((Viewer.user 1 = Viewer.user exPostDraft.author →
      postDetail exDB (Viewer.user 1) 3 =
        .found (exPostDraft, commentsOf exDB 3)) ∧
    (Viewer.user 1 ≠ Viewer.user exPostDraft.author →
      publishedPostFilter exDB exPostDraft = false →
      postDetail exDB (Viewer.user 1) 3 = .notFound) ∧
    postDetail exDB (Viewer.user 1) 3 ≠ .forbidden) :=
  ⟨by decide,
   C3_post_detail exDB exPostDraft (Viewer.user 1) 3 (by decide) (by decide)⟩

/-- C4 counterexample: an authenticated non-owner's comment edit/delete
does not produce an access-denied response but a not-found one
(`get_object_or_404(Comment, pk=..., author=request.user)`), and a
non-owner profile edit does not produce an access-denied response but a
redirect to that profile's page. -/
theorem C4_counterexample :
    commentUpdateRequest exDB (Viewer.user 1) 1 1 id = (.notFound, exDB) ∧
    commentDeleteRequest exDB (Viewer.user 1) 1 1 = (.notFound, exDB) ∧
    profileUpdateRequest exDB (Viewer.user 2) "alice" id =
      (.redirectProfile "alice", exDB) ∧
    DispatchResult.notFound ≠ .forbidden ∧
    DispatchResult.redirectProfile "alice" ≠ .forbidden := by
  refine ⟨by decide, by decide, by decide, by decide, by decide⟩

/-- C4 (amended): for an authenticated viewer who is not the owner, an
edit or delete request on an existing post redirects to that post's own
detail page; an edit or delete request on another user's comment
surfaces as not-found (never access-denied); an edit request on another
user's profile redirects to that profile's page; and in every such
failure case the database is left unchanged. -/
theorem C4_non_owner (db : DB) (uid : Nat) :
    (∀ p pk f, db.posts.find? (fun q => q.id = pk) = some p →
      p.author ≠ uid →
      postUpdateRequest db (.user uid) pk f =
        (.redirectPostDetail p.id, db)) ∧
    (∀ p pk, db.posts.find? (fun q => q.id = pk) = some p →
      p.author ≠ uid →
      postDeleteRequest db (.user uid) pk =
        (.redirectPostDetail p.id, db)) ∧
    (∀ ppk cpk g, (∀ c ∈ db.comments, c.id = cpk → c.author ≠ uid) →
      commentUpdateRequest db (.user uid) ppk cpk g = (.notFound, db)) ∧
    (∀ ppk cpk, (∀ c ∈ db.comments, c.id = cpk → c.author ≠ uid) →
      commentDeleteRequest db (.user uid) ppk cpk = (.notFound, db)) ∧
    (∀ name u g, db.findUser name = some u → u.id ≠ uid →
      profileUpdateRequest db (.user uid) name g =
        (.redirectProfile name, db)) := by
  have hfindc : ∀ cpk, (∀ c ∈ db.comments, c.id = cpk → c.author ≠ uid) →
      db.comments.find?
        (fun c => c.id = cpk && c.author = uid) = none := by
    intro cpk hc
    apply List.find?_eq_none.mpr
    intro c hcm
    simp only [Bool.and_eq_true, decide_eq_true_iff, not_and]
    intro hid
    exact hc c hcm hid
  refine ⟨?_, ?_, ?_, ?_, ?_⟩
  · intro p pk f hf ha
    simp [postUpdateRequest, postUpdateDispatch, postFkJoinedQueryset, hf, ha]
  · intro p pk hf ha
    simp [postDeleteRequest, postDeleteDispatch, postFkJoinedQueryset, hf, ha]
  · intro ppk cpk g hc
    cases hpub : (publishedPostsQueryset db).find? (fun p => p.id = ppk) <;>
      simp [commentUpdateRequest, commentUpdateDispatch,
        Viewer.is_authenticated, hpub, hfindc cpk hc]
  · intro ppk cpk hc
    cases hpub : (publishedPostsQueryset db).find? (fun p => p.id = ppk) <;>
      simp [commentDeleteRequest, commentDeleteDispatch,
        Viewer.is_authenticated, hpub, hfindc cpk hc]
  · intro name u g hu hne
    simp [profileUpdateRequest, profileUpdateDispatch, hu, hne]

/-- C4 witness: the amended theorem applied on the fixtures — bob
editing and deleting alice's post, alice editing and deleting bob's
comment, bob editing alice's profile. -/
theorem C4_witness :
    postUpdateRequest exDB (Viewer.user 2) 1 id =
      (.redirectPostDetail exPostOld.id, exDB) ∧
    postDeleteRequest exDB (Viewer.user 2) 1 =
      (.redirectPostDetail exPostOld.id, exDB) ∧
    commentUpdateRequest exDB (Viewer.user 1) 1 1 id = (.notFound, exDB) ∧
    commentDeleteRequest exDB (Viewer.user 1) 1 1 = (.notFound, exDB) ∧
    profileUpdateRequest exDB (Viewer.user 2) "alice" id =
      (.redirectProfile "alice", exDB) :=
  ⟨(C4_non_owner exDB 2).1 exPostOld 1 id (by decide) (by decide),
   (C4_non_owner exDB 2).2.1 exPostOld 1 (by decide) (by decide),
   (C4_non_owner exDB 1).2.2.1 1 1 id (by decide),
   (C4_non_owner exDB 1).2.2.2.1 1 1 (by decide),
   (C4_non_owner exDB 2).2.2.2.2 "alice" exAlice id (by decide) (by decide)⟩

/-- C5 counterexample: an unauthenticated edit or delete request on an
existing post is not redirected to the authentication entry point: the
views' own `dispatch` runs before `LoginRequiredMixin` and redirects to
the post's detail page; an unauthenticated profile edit likewise
redirects to the profile page. -/
theorem C5_counterexample :
    postUpdateRequest exDB .anonymous 1 id =
      (.redirectPostDetail 1, exDB) ∧
    postDeleteRequest exDB .anonymous 1 = (.redirectPostDetail 1, exDB) ∧
    profileUpdateRequest exDB .anonymous "alice" id =
      (.redirectProfile "alice", exDB) ∧
    DispatchResult.redirectPostDetail 1 ≠ .redirectLogin ∧
    DispatchResult.redirectProfile "alice" ≠ .redirectLogin := by
  refine ⟨by decide, by decide, by decide, by decide, by decide⟩

/-- C5 (amended): for an unauthenticated viewer, post create and every
comment mutation redirect to the authentication entry point; post edit
and delete redirect to the post's own detail page when the post exists
(not-found otherwise); profile edit redirects to that profile's page
when the user exists (not-found otherwise); and in every case no entity
is created, modified or deleted. -/
theorem C5_unauthenticated (db : DB) (p : Post) (pk cpk cid : Nat)
    (txt : String) (ts : Int) (f : Post → Post) (g : Comment → Comment)
    (h : User → User) (name : String) :
    postCreateRequest db .anonymous p = (.redirectLogin, db) ∧
    commentCreateRequest db .anonymous pk cid txt ts = (.redirectLogin, db) ∧
    commentUpdateRequest db .anonymous pk cpk g = (.redirectLogin, db) ∧
    commentDeleteRequest db .anonymous pk cpk = (.redirectLogin, db) ∧
    (∀ q, db.posts.find? (fun r => r.id = pk) = some q →
      postUpdateRequest db .anonymous pk f =
        (.redirectPostDetail q.id, db) ∧
      postDeleteRequest db .anonymous pk = (.redirectPostDetail q.id, db)) ∧
    (db.posts.find? (fun r => r.id = pk) = none →
      postUpdateRequest db .anonymous pk f = (.notFound, db) ∧
      postDeleteRequest db .anonymous pk = (.notFound, db)) ∧
    (∀ u, db.findUser name = some u →
      profileUpdateRequest db .anonymous name h =
        (.redirectProfile name, db)) ∧
    (db.findUser name = none →
      profileUpdateRequest db .anonymous name h = (.notFound, db)) ∧
    (postUpdateRequest db .anonymous pk f).2 = db ∧
    (postDeleteRequest db .anonymous pk).2 = db ∧
    (profileUpdateRequest db .anonymous name h).2 = db := by
  refine ⟨?_, ?_, ?_, ?_, ?_, ?_, ?_, ?_, ?_, ?_, ?_⟩
  · simp [postCreateRequest, postCreateDispatch, Viewer.is_authenticated]
  · simp [commentCreateRequest, commentCreateDispatch,
      Viewer.is_authenticated]
  · simp [commentUpdateRequest, commentUpdateDispatch,
      Viewer.is_authenticated]
  · simp [commentDeleteRequest, commentDeleteDispatch,
      Viewer.is_authenticated]
  · intro q hq
    exact ⟨by simp [postUpdateRequest, postUpdateDispatch,
        postFkJoinedQueryset, hq],
      by simp [postDeleteRequest, postDeleteDispatch,
        postFkJoinedQueryset, hq]⟩
  · intro hq
    exact ⟨by simp [postUpdateRequest, postUpdateDispatch,
        postFkJoinedQueryset, hq],
      by simp [postDeleteRequest, postDeleteDispatch,
        postFkJoinedQueryset, hq]⟩
  · intro u hu
    simp [profileUpdateRequest, profileUpdateDispatch, hu]
  · intro hu
    simp [profileUpdateRequest, profileUpdateDispatch, hu]
  · cases hq : db.posts.find? (fun r => r.id = pk) <;>
      simp [postUpdateRequest, postUpdateDispatch, postFkJoinedQueryset, hq]
  · cases hq : db.posts.find? (fun r => r.id = pk) <;>
      simp [postDeleteRequest, postDeleteDispatch, postFkJoinedQueryset, hq]
  · cases hu : db.findUser name <;>
      simp [profileUpdateRequest, profileUpdateDispatch, hu]

/-- C5 witness: the amended theorem applied on the fixtures for an
anonymous viewer. -/
theorem C5_witness :
    postCreateRequest exDB .anonymous exPostNew = (.redirectLogin, exDB) ∧
    commentCreateRequest exDB .anonymous 1 7 "x" 0 =
      (.redirectLogin, exDB) ∧
    postUpdateRequest exDB .anonymous 1 id =
      (.redirectPostDetail exPostOld.id, exDB) ∧
    postDeleteRequest exDB .anonymous 1 =
      (.redirectPostDetail exPostOld.id, exDB) ∧
    profileUpdateRequest exDB .anonymous "alice" id =
      (.redirectProfile "alice", exDB) :=
  ⟨(C5_unauthenticated exDB exPostNew 1 1 7 "x" 0 id id id "alice").1,
   (C5_unauthenticated exDB exPostNew 1 1 7 "x" 0 id id id "alice").2.1,
   ((C5_unauthenticated exDB exPostNew 1 1 7 "x" 0 id id id
      "alice").2.2.2.2.1 exPostOld (by decide)).1,
   ((C5_unauthenticated exDB exPostNew 1 1 7 "x" 0 id id id
      "alice").2.2.2.2.1 exPostOld (by decide)).2,
   (C5_unauthenticated exDB exPostNew 1 1 7 "x" 0 id id id
      "alice").2.2.2.2.2.2.1 exAlice (by decide)⟩

/-- C6 counterexample: `Paginator.get_page` resolves a page number below
1 through its `EmptyPage` handler, which returns the LAST page, not page
1: with 4 items at page size 3, page 0 yields the last page `[4]` while
page 1 yields `[1, 2, 3]`. -/
theorem C6_counterexample :
    paginate [1, 2, 3, 4] 3 (some 0) = [4] ∧
    paginate [1, 2, 3, 4] 3 (some 1) = [1, 2, 3] ∧
    paginate [1, 2, 3, 4] 3 (some 0) ≠ paginate [1, 2, 3, 4] 3 (some 1) := by
  refine ⟨by decide, by decide, by decide⟩

/-- C6 (amended): paginating N > 0 items at page size S > 0 produces
`ceil(N/S)` pages; the last page has `N mod S` items (or S when S
divides N); an absent (or non-integer) page parameter yields page 1; a
page number below 1 or above the page count yields the LAST page. -/
theorem C6_pagination {α : Type} (l : List α) (S : Nat) (hS : 0 < S)
    (hN : 0 < l.length) :
    numPages l.length S = (l.length + S - 1) / S ∧
    (paginate l S (some (numPages l.length S))).length =
      (if l.length % S = 0 then S else l.length % S) ∧
    (∀ n : Int, n < 1 →
      paginate l S (some n) = paginate l S (some (numPages l.length S))) ∧
    (∀ n : Int, (numPages l.length S : Int) < n →
      paginate l S (some n) = paginate l S (some (numPages l.length S))) ∧
    paginate l S none = paginate l S (some 1) := by
  have hmax : max 1 l.length = l.length := Nat.max_eq_right hN
  have hceil : numPages l.length S = (l.length + S - 1) / S := by
    unfold numPages
    rw [hmax]
  have hqr : S * (l.length / S) + l.length % S = l.length :=
    Nat.div_add_mod l.length S
  have hrS : l.length % S < S := Nat.mod_lt _ hS
  have hq1 : l.length % S = 0 → 1 ≤ l.length / S := by
    intro h0
    rcases Nat.eq_zero_or_pos (l.length / S) with h | h
    · rw [h, Nat.mul_zero, h0] at hqr
      omega
    · exact h
  have hP : numPages l.length S =
      if l.length % S = 0 then l.length / S else l.length / S + 1 := by
    rw [hceil]
    by_cases h0 : l.length % S = 0
    · have he : l.length + S - 1 = S * (l.length / S) + (S - 1) := by omega
      rw [he, Nat.mul_add_div hS,
        Nat.div_eq_of_lt (show S - 1 < S by omega)]
      simp [h0]
    · have hx : S * (l.length / S + 1) = S * (l.length / S) + S := by ring
      have he : l.length + S - 1 =
          S * (l.length / S + 1) + (l.length % S - 1) := by omega
      rw [he, Nat.mul_add_div hS,
        Nat.div_eq_of_lt (show l.length % S - 1 < S by omega)]
      simp [h0]
  have hP1 : 1 ≤ numPages l.length S := by
    rw [hP]
    by_cases h0 : l.length % S = 0
    · simpa [h0] using hq1 h0
    · simp [h0]
  have hget : getPageNumber l.length S (some (numPages l.length S)) =
      numPages l.length S := by
    show (if ((numPages l.length S : Int) < 1) then numPages l.length S
      else if (numPages l.length S : Int) < (numPages l.length S : Int) then
        numPages l.length S
      else (numPages l.length S : Int).toNat) = numPages l.length S
    rw [if_neg (by exact_mod_cast Nat.not_lt.mpr hP1),
      if_neg (by exact_mod_cast Nat.lt_irrefl _)]
    simp
  have hget1 : getPageNumber l.length S (some 1) = 1 := by
    show (if ((1 : Int) < 1) then numPages l.length S
      else if (numPages l.length S : Int) < (1 : Int) then numPages l.length S
      else (1 : Int).toNat) = 1
    rw [if_neg (by omega),
      if_neg (by exact_mod_cast Nat.not_lt.mpr hP1)]
    simp
  refine ⟨hceil, ?_, ?_, ?_, ?_⟩
  · have hlen : (paginate l S (some (numPages l.length S))).length =
        min S (l.length - (numPages l.length S - 1) * S) := by
      simp [paginate, hget]
    rw [hlen, hP]
    by_cases h0 : l.length % S = 0
    · have hSq : S ≤ S * (l.length / S) :=
        Nat.le_mul_of_pos_right S (hq1 h0)
      have hc : (l.length / S - 1) * S = S * (l.length / S) - S := by
        rw [Nat.sub_mul, one_mul, Nat.mul_comm]
      simp only [h0, if_true, hc]
      omega
    · have hc : (l.length / S + 1 - 1) * S = S * (l.length / S) := by
        rw [Nat.add_sub_cancel, Nat.mul_comm]
      simp only [h0, if_false, hc]
      omega
  · intro n hn
    have hlow : getPageNumber l.length S (some n) = numPages l.length S := by
      show (if (n < 1) then numPages l.length S
        else if (numPages l.length S : Int) < n then numPages l.length S
        else n.toNat) = numPages l.length S
      rw [if_pos hn]
    simp [paginate, hlow, hget]
  · intro n hn
    have hhigh : getPageNumber l.length S (some n) = numPages l.length S := by
      show (if (n < 1) then numPages l.length S
        else if (numPages l.length S : Int) < n then numPages l.length S
        else n.toNat) = numPages l.length S
      rw [if_neg (by omega), if_pos hn]
    simp [paginate, hhigh, hget]
  · have hnone : getPageNumber l.length S none = 1 := rfl
    simp [paginate, hnone, hget1]

/-- C6 witness: the amended theorem applied to 4 items at page size 3. -/
theorem C6_witness :
    numPages (List.length [10, 20, 30, 40]) 3 =
      (List.length [10, 20, 30, 40] + 3 - 1) / 3 ∧
    (paginate [10, 20, 30, 40] 3
        (some (numPages (List.length [10, 20, 30, 40]) 3))).length =
      (if List.length [10, 20, 30, 40] % 3 = 0 then 3
        else List.length [10, 20, 30, 40] % 3) ∧
    (∀ n : Int, n < 1 →
      paginate [10, 20, 30, 40] 3 (some n) =
        paginate [10, 20, 30, 40] 3
          (some (numPages (List.length [10, 20, 30, 40]) 3))) ∧
    (∀ n : Int, (numPages (List.length [10, 20, 30, 40]) 3 : Int) < n →
      paginate [10, 20, 30, 40] 3 (some n) =
        paginate [10, 20, 30, 40] 3
          (some (numPages (List.length [10, 20, 30, 40]) 3))) ∧
    paginate [10, 20, 30, 40] 3 none = paginate [10, 20, 30, 40] 3 (some 1) :=
  C6_pagination [10, 20, 30, 40] 3 (by decide) (by decide)

/-- First components of the comment-count pairs recover the rows. -/
theorem map_fst_pairing (db : DB) (l : List Post) :
    (l.map (fun p => (p, commentCount db p))).map Prod.fst = l := by
  induction l with
  | nil => rfl
  | cons a t ih => simp only [List.map_cons, ih]

/-- Every pair built by the comment-count pairing carries the comment
count of its post. -/
theorem pairing_counts (db : DB) (l : List Post) :
    ∀ pr ∈ l.map (fun p => (p, commentCount db p)),
      pr.2 = commentCount db pr.1 := by
  intro pr hpr
  rw [List.mem_map] at hpr
  obtain ⟨p, hp, hpr⟩ := hpr
  rw [← hpr]

/-- C7: the profile page of user U lists, for U viewing their own
profile, all of U's posts (drafts and future-dated posts included), and
for any other viewer exactly U's publicly visible posts; in both cases
each listed post is annotated with its comment count. -/
theorem C7_profile_listing (db : DB) (u : User) (name : String) (v : Viewer)
    (hu : db.findUser name = some u) :
    (v = Viewer.user u.id → ∃ items,
      profileDetail db v name = .found (u, items) ∧
      (∀ p : Post,
        p ∈ items.map Prod.fst ↔ (p ∈ db.posts ∧ p.author = u.id)) ∧
      (∀ pr ∈ items, pr.2 = commentCount db pr.1)) ∧
    (v ≠ Viewer.user u.id → ∃ items,
      profileDetail db v name = .found (u, items) ∧
      (∀ p : Post, p ∈ items.map Prod.fst ↔
        (p ∈ publishedPostsQueryset db ∧ p.author = u.id)) ∧
      (∀ pr ∈ items, pr.2 = commentCount db pr.1)) := by
  have hdet : profileDetail db v name =
      .found (u, (profilePostsSource db v u).map
        (fun p => (p, commentCount db p))) := by
    simp [profileDetail, hu]
  constructor
  · intro hv
    refine ⟨_, hdet, ?_, pairing_counts db _⟩
    intro p
    rw [map_fst_pairing]
    simp [profilePostsSource, hv, postFkJoinedQueryset, List.mem_filter]
  · intro hv
    refine ⟨_, hdet, ?_, pairing_counts db _⟩
    intro p
    rw [map_fst_pairing]
    simp [profilePostsSource, hv, List.mem_filter]

/-- C7 witness: the theorem applied to alice's profile as seen by alice
herself (v = user 1) on the fixtures. -/
theorem C7_witness :
    exDB.findUser "alice" = some exAlice ∧
    ((Viewer.user 1 = Viewer.user exAlice.id → ∃ items,
      profileDetail exDB (Viewer.user 1) "alice" = .found (exAlice, items) ∧
      (∀ p : Post, p ∈ items.map Prod.fst ↔
        (p ∈ exDB.posts ∧ p.author = exAlice.id)) ∧
      (∀ pr ∈ items, pr.2 = commentCount exDB pr.1)) ∧
    (Viewer.user 1 ≠ Viewer.user exAlice.id → ∃ items,
      profileDetail exDB (Viewer.user 1) "alice" = .found (exAlice, items) ∧
      (∀ p : Post, p ∈ items.map Prod.fst ↔
        (p ∈ publishedPostsQueryset exDB ∧ p.author = exAlice.id)) ∧
      (∀ pr ∈ items, pr.2 = commentCount exDB pr.1))) :=
  ⟨by decide,
   C7_profile_listing exDB exAlice "alice" (Viewer.user 1) (by decide)⟩

/-- C8: a by-category listing request resolves to not-found when no
published category carries the slug (the category is missing or
unpublished); otherwise it lists exactly the publicly visible posts of
that category, each annotated with its comment count. -/
theorem C8_category_listing (db : DB) (s : String) :
    ((∀ c ∈ db.categories, c.slug = s → c.is_published = false) →
      categoryDetail db s = .notFound) ∧
    (∀ c, (db.categories.filter (fun c => c.is_published)).find?
        (fun c => c.slug = s) = some c →
      ∃ items, categoryDetail db s = .found (c, items) ∧
        (∀ p : Post, p ∈ items.map Prod.fst ↔
          (p ∈ publishedPostsQueryset db ∧ p.category = some c.id)) ∧
        (∀ pr ∈ items, pr.2 = commentCount db pr.1)) := by
  constructor
  · intro h
    have hnone : (db.categories.filter (fun c => c.is_published)).find?
        (fun c => c.slug = s) = none := by
      apply List.find?_eq_none.mpr
      intro c hc
      rw [List.mem_filter] at hc
      simp only [decide_eq_true_iff]
      intro hs
      have hpub := h c hc.1 hs
      rw [hpub] at hc
      exact absurd hc.2 (by simp)
    simp [categoryDetail, hnone]
  · intro c hc
    refine ⟨((publishedPostsQueryset db).filter
        (fun p => p.category = some c.id)).map
        (fun p => (p, commentCount db p)), ?_, ?_, pairing_counts db _⟩
    · simp [categoryDetail, hc]
    · intro p
      rw [map_fst_pairing]
      simp [List.mem_filter]

/-- C8 witness: the theorem applied to the unpublished category's slug
(not-found branch) and to the published category (listing branch) on
the fixtures. -/
theorem C8_witness :
    categoryDetail exDB "hid" = .notFound ∧
    (∃ items, categoryDetail exDB "cat" = .found (exCat, items) ∧
      (∀ p : Post, p ∈ items.map Prod.fst ↔
        (p ∈ publishedPostsQueryset exDB ∧ p.category = some exCat.id)) ∧
      (∀ pr ∈ items, pr.2 = commentCount exDB pr.1)) :=
  ⟨(C8_category_listing exDB "hid").1 (by decide),
   (C8_category_listing exDB "cat").2 exCat (by decide)⟩

/-- C9: the views dereference the manager attribute names
`published_posts_query` and `post_fk_joined_query` on `Post`, but the
model defines its managers under the names `objects`, `published_posts`
and `posts_fk_joined`; neither referenced name is among the defined
attributes, so the lookup cannot succeed. -/
theorem C9_manager_name_mismatch :
    "published_posts_query" ∈ viewsManagerReferences ∧
    "post_fk_joined_query" ∈ viewsManagerReferences ∧
    "published_posts_query" ∉ postManagerAttributes ∧
    "post_fk_joined_query" ∉ postManagerAttributes ∧
    ¬(∀ rname ∈ viewsManagerReferences, rname ∈ postManagerAttributes) := by
  refine ⟨by decide, by decide, by decide, by decide, by decide⟩

/-- C10: every comment mutation (create, edit, delete) looks the parent
post up in the published-posts query first, so when the post exists but
fails the public-visibility filter the request resolves to not-found for
every authenticated viewer — the post's or comment's own author
included — and the database is unchanged. -/
theorem C10_comment_ops_need_visible_post (db : DB) (v : Viewer) (P : Post)
    (post_pk comment_pk cid : Nat) (txt : String) (ts : Int)
    (g : Comment → Comment)
    (hv : v.is_authenticated = true)
    (hn : db.postIdsNodup)
    (hf : db.posts.find? (fun q => q.id = post_pk) = some P)
    (hvis : publishedPostFilter db P = false) :
    commentCreateRequest db v post_pk cid txt ts = (.notFound, db) ∧
    commentUpdateRequest db v post_pk comment_pk g = (.notFound, db) ∧
    commentDeleteRequest db v post_pk comment_pk = (.notFound, db) := by
  have hnone : (publishedPostsQueryset db).find?
      (fun q => q.id = post_pk) = none := by
    show (db.posts.filter (publishedPostFilter db)).find?
      (fun q => q.id = post_pk) = none
    rw [find_filter_eq hn hf (publishedPostFilter db), hvis]
    simp
  cases v with
  | anonymous => simp [Viewer.is_authenticated] at hv
  | user uid =>
    refine ⟨?_, ?_, ?_⟩
    · simp [commentCreateRequest, commentCreateDispatch,
        Viewer.is_authenticated, hnone]
    · simp [commentUpdateRequest, commentUpdateDispatch,
        Viewer.is_authenticated, hnone]
    · simp [commentDeleteRequest, commentDeleteDispatch,
        Viewer.is_authenticated, hnone]

/-- C10 witness: the theorem applied to alice (the author) acting on her
own post whose `pub_date` equals the current time. -/
theorem C10_witness :
    Viewer.is_authenticated (Viewer.user 1) = true ∧
    publishedPostFilter exDB exPostAtNow = false ∧
    (commentCreateRequest exDB (Viewer.user 1) 2 7 "x" 0 =
      (.notFound, exDB) ∧
    commentUpdateRequest exDB (Viewer.user 1) 2 1 id = (.notFound, exDB) ∧
    commentDeleteRequest exDB (Viewer.user 1) 2 1 = (.notFound, exDB)) :=
  ⟨by decide, by decide,
   C10_comment_ops_need_visible_post exDB (Viewer.user 1) exPostAtNow 2 1 7
     "x" 0 id (by decide) (by decide) (by decide) (by decide)⟩

end Blogicum
